import Mathlib

/-!
# Verification model of the ether_ros cyclic EtherCAT communicator

Shallow embedding of `src/ethercat_communicator.cpp` (EthercatCommunicator):
the distributed-clock drift filter (`update_master_clock`,
`sync_distributed_clocks`, `system_time_ns`), the cyclic worker loop
(`run`), and the lifecycle operations (`start`, `stop`,
`has_running_thread`).

C integer semantics are modelled explicitly: C `/` and `%` on signed
integers truncate toward zero, so they are embedded as `Int.tdiv` and
`Int.tmod`; `uint64_t` arithmetic is reduced `% 2^64`.
-/

namespace EtherRos

/-- `PERIOD_NS`-style period and `DC_FILTER_CNT`-style window size are
preprocessor constants defined in a header outside `src/`; the model keeps
them as parameters `P` (period, ns) and `N` (filter window size). -/
structure DCConfig where
  P : Int
  N : Int
deriving DecidableEq, Repr

/-- Modelled from the spec: the `sign` helper used by
`update_master_clock` lives in a utility header outside `src/`. The spec
calls it "a unit proportional nudge", i.e. the usual `-1 / 0 / +1`
sign function. -/
def sign (v : Int) : Int :=
  (if 0 < v then (1 : Int) else 0) - (if v < 0 then (1 : Int) else 0)

/-- The static distributed-clock state of `EthercatCommunicator`
(`dc_*_ns_` / `system_time_base_` statics, lines 52-63 of
`ethercat_communicator.cpp`). `dc_started` is the `uint8_t dc_started_`
flag, kept as `Bool` (the code only stores `0` or a `!= 0` comparison
result into it). -/
structure ClockState where
  dc_diff_ns : Int
  prev_dc_diff_ns : Int
  dc_diff_total_ns : Int
  dc_delta_total_ns : Int
  dc_filter_idx : Int
  dc_adjust_ns : Int
  system_time_base : Int
  dc_started : Bool
  dc_time_ns : Int
  dc_start_time_ns : Int
deriving DecidableEq, Repr

/-- The all-zero initial `ClockState` (the static initializers at
lines 52-63). -/
def ClockState.zero : ClockState :=
  { dc_diff_ns := 0, prev_dc_diff_ns := 0, dc_diff_total_ns := 0,
    dc_delta_total_ns := 0, dc_filter_idx := 0, dc_adjust_ns := 0,
    system_time_base := 0, dc_started := false, dc_time_ns := 0,
    dc_start_time_ns := 0 }

/-- The normalisation step of `update_master_clock` (lines 142-143):
`((dc_diff_ns_ + (PERIOD_NS / 2)) % PERIOD_NS) - (PERIOD_NS / 2)` with
C truncated `/` and `%`. -/
def normalize (d P : Int) : Int :=
  Int.tmod (d + Int.tdiv P 2) P - Int.tdiv P 2

/-- `EthercatCommunicator::update_master_clock` (lines 134-196), the
`SYNC_MASTER_TO_REF` drift filter.  Reads the raw diff from
`s.dc_diff_ns` (which `sync_distributed_clocks` set to
`(uint32_t)prev_app_time - ref_time`) and leaves the normalised diff
there, exactly as the C code mutates `dc_diff_ns_` in place. -/
def update_master_clock (cfg : DCConfig) (s : ClockState) : ClockState :=
  let delta := s.dc_diff_ns - s.prev_dc_diff_ns
  let prev := s.dc_diff_ns
  let d := normalize s.dc_diff_ns cfg.P
  if s.dc_started then
    let total := s.dc_diff_total_ns + d
    let dtotal := s.dc_delta_total_ns + delta
    let idx := s.dc_filter_idx + 1
    if idx ≥ cfg.N then
      let adj₁ := s.dc_adjust_ns + Int.tdiv (dtotal + Int.tdiv cfg.N 2) cfg.N
      let adj₂ := adj₁ + sign (Int.tdiv total cfg.N)
      let adj₃ := if adj₂ < -1000 then -1000 else adj₂
      let adj₄ := if adj₃ > 1000 then 1000 else adj₃
      { s with
        dc_diff_ns := d, prev_dc_diff_ns := prev,
        dc_diff_total_ns := 0, dc_delta_total_ns := 0, dc_filter_idx := 0,
        dc_adjust_ns := adj₄,
        system_time_base := s.system_time_base + adj₄ + sign d }
    else
      { s with
        dc_diff_ns := d, prev_dc_diff_ns := prev,
        dc_diff_total_ns := total, dc_delta_total_ns := dtotal,
        dc_filter_idx := idx,
        system_time_base := s.system_time_base + s.dc_adjust_ns + sign d }
  else
    let started := d ≠ 0
    { s with
      dc_diff_ns := d, prev_dc_diff_ns := prev,
      dc_started := decide started,
      dc_start_time_ns := if started then s.dc_time_ns else s.dc_start_time_ns }

/-- One drift-filter cycle as seen by the worker loop: in
`sync_distributed_clocks` (lines 101-125) the raw diff
`(uint32_t)prev_app_time - ref_time` is stored into `dc_diff_ns_`, then
`update_master_clock` runs after the frame is sent.  The raw diff is the
step input `d`. -/
def dcStep (cfg : DCConfig) (s : ClockState) (d : Int) : ClockState :=
  update_master_clock cfg { s with dc_diff_ns := d }

/-- Iterate `dcStep` over a sequence of raw diffs. -/
def dcRun (cfg : DCConfig) (s : ClockState) (ds : List Int) : ClockState :=
  ds.foldl (dcStep cfg) s

/-- Round-half-up of the exact quotient `a / b` (for `b > 0`):
`⌊(2a + b) / (2b)⌋`.  This is the `round(delta_total / N)` of the
specification text. -/
def roundDiv (a b : Int) : Int :=
  Int.fdiv (2 * a + b) (2 * b)

/-- Specification-side variant of `update_master_clock`, following the
spec's words for the window boundary: "compute
`avg_delta = round(delta_total / N)`, add to cumulative adjustment".
It differs from `update_master_clock` only in using an exact rounded
average `roundDiv delta_total N` where the code computes the C-truncated
`(dc_delta_total_ns_ + (DC_FILTER_CNT / 2)) / DC_FILTER_CNT`. -/
def spec_update_master_clock (cfg : DCConfig) (s : ClockState) : ClockState :=
  let delta := s.dc_diff_ns - s.prev_dc_diff_ns
  let prev := s.dc_diff_ns
  let d := normalize s.dc_diff_ns cfg.P
  if s.dc_started then
    let total := s.dc_diff_total_ns + d
    let dtotal := s.dc_delta_total_ns + delta
    let idx := s.dc_filter_idx + 1
    if idx ≥ cfg.N then
      let adj₁ := s.dc_adjust_ns + roundDiv dtotal cfg.N
      let adj₂ := adj₁ + sign (Int.tdiv total cfg.N)
      let adj₃ := if adj₂ < -1000 then -1000 else adj₂
      let adj₄ := if adj₃ > 1000 then 1000 else adj₃
      { s with
        dc_diff_ns := d, prev_dc_diff_ns := prev,
        dc_diff_total_ns := 0, dc_delta_total_ns := 0, dc_filter_idx := 0,
        dc_adjust_ns := adj₄,
        system_time_base := s.system_time_base + adj₄ + sign d }
    else
      { s with
        dc_diff_ns := d, prev_dc_diff_ns := prev,
        dc_diff_total_ns := total, dc_delta_total_ns := dtotal,
        dc_filter_idx := idx,
        system_time_base := s.system_time_base + s.dc_adjust_ns + sign d }
  else
    let started := d ≠ 0
    { s with
      dc_diff_ns := d, prev_dc_diff_ns := prev,
      dc_started := decide started,
      dc_start_time_ns := if started then s.dc_time_ns else s.dc_start_time_ns }

/-- One spec-side drift cycle (analogue of `dcStep`). -/
def spec_dcStep (cfg : DCConfig) (s : ClockState) (d : Int) : ClockState :=
  spec_update_master_clock cfg { s with dc_diff_ns := d }

/-- Iterate `spec_dcStep` over a sequence of raw diffs. -/
def spec_dcRun (cfg : DCConfig) (s : ClockState) (ds : List Int) : ClockState :=
  ds.foldl (spec_dcStep cfg) s

/-- The operations of one iteration of the worker loop
(`EthercatCommunicator::run`, lines 507-553), in program order. -/
inductive CycleEvent where
  | masterReceive
  | domainProcess
  | checkDomainState
  | checkMasterState
  | copyOutputs
  | domainQueue
  | syncDistributedClocks
  | masterSend
  | publishRawData
  | updateMasterClock
deriving DecidableEq, Repr

/-- The event trace of one worker-loop iteration, read off lines 507-553
of `ethercat_communicator.cpp`: `ecrt_master_receive`,
`ecrt_domain_process`, `utilities::check_domain1_state`, then (only when
`sampling_counter` is zero) `utilities::check_master_state`, then
`utilities::copy_process_data_buffer_to_buf` (applies the pending output
commands to `domain1_pd`), `ecrt_domain_queue`,
`sync_distributed_clocks`, `ecrt_master_send`, `publish_raw_data`
(builds and publishes the raw process-data snapshot), and
`update_master_clock`. -/
def cycleTrace (samplingCounterZero : Bool) : List CycleEvent :=
  [.masterReceive, .domainProcess, .checkDomainState] ++
    (if samplingCounterZero then [.checkMasterState] else []) ++
    [.copyOutputs, .domainQueue, .syncDistributedClocks, .masterSend,
      .publishRawData, .updateMasterClock]

/-- `struct timespec` with the nonnegative values the loop uses. -/
structure Timespec where
  sec : Nat
  nsec : Nat
deriving DecidableEq, Repr

def NSEC_PER_SEC : Nat := 1000000000

/-- Modelled from the spec: `utilities::timespec_add` (defined in
`utilities.cpp`, outside `src/`), the "previous_wakeup + period" addition
of §4.1 — componentwise addition with nanosecond carry. -/
def timespec_add (t1 t2 : Timespec) : Timespec :=
  if NSEC_PER_SEC ≤ t1.nsec + t2.nsec then
    { sec := t1.sec + t2.sec + 1, nsec := t1.nsec + t2.nsec - NSEC_PER_SEC }
  else
    { sec := t1.sec + t2.sec, nsec := t1.nsec + t2.nsec }

/-- Total nanoseconds of a `Timespec` (the `TIMESPEC2NS` macro). -/
def Timespec.toNs (t : Timespec) : Nat :=
  t.sec * NSEC_PER_SEC + t.nsec

/-- The absolute wakeup times of the worker loop
(`EthercatCommunicator::run`, lines 484 and 499-500): the initial wakeup
is the time read before the loop; each iteration computes
`wakeup_time = timespec_add(wakeup_time, cycletime)` with
`cycletime = {0, PERIOD_NS}` and sleeps until that absolute time.
`durs n` is the duration of cycle `n`'s body; exactly as in the code —
which never reads the current clock to compute a wakeup — it does not
enter the computation. -/
def wakeupTime (t0 : Timespec) (P : Nat) (durs : Nat → Nat) : Nat → Timespec
  | 0 => t0
  | n + 1 => timespec_add (wakeupTime t0 P durs n) { sec := 0, nsec := P }

/-- The `(uint64_t)` cast of a signed value. -/
def uint64OfInt (x : Int) : Nat :=
  (x % (2 : Int) ^ 64).toNat

/-- The `(int64_t)` reinterpretation of a `uint64_t` value. -/
def int64OfNat (n : Nat) : Int :=
  if n % 2 ^ 64 < 2 ^ 63 then ((n % 2 ^ 64 : Nat) : Int)
  else ((n % 2 ^ 64 : Nat) : Int) - (2 : Int) ^ 64

/-- `EthercatCommunicator::system_time_ns` (lines 76-95): with `timeNs`
the raw `TIMESPEC2NS` clock reading (a `uint64_t`) and `base` the
`int64_t system_time_base_`, if `base > (int64_t)timeNs` the raw time is
returned unchanged (after reporting the anomaly); otherwise the code
returns the `uint64_t` difference `timeNs - (uint64_t)base`. -/
def system_time_ns (base : Int) (timeNs : Nat) : Nat :=
  if base > int64OfNat timeNs then timeNs
  else (timeNs + (2 ^ 64 - uint64OfInt base)) % 2 ^ 64

inductive StartResult where
  | ok
  | alreadyRunning
deriving DecidableEq, Repr

/-- The result `pthread_join` reports in `stop`: whether the worker
honoured the cancellation request (`res == PTHREAD_CANCELED`). -/
inductive JoinResult where
  | canceled
  | notCanceled
deriving DecidableEq, Repr

/-- The lifecycle-relevant static state of `EthercatCommunicator`:
`running_thread_`, whether the worker thread has terminated, the shared
`process_data_buf` (as its byte values), and the drift-filter state. -/
structure CommunicatorState where
  running_thread : Bool
  thread_terminated : Bool
  process_data_buf : List Nat
  clock : ClockState
deriving DecidableEq, Repr

/-- `EthercatCommunicator::has_running_thread` (lines 200-203). -/
def has_running_thread (s : CommunicatorState) : Bool :=
  s.running_thread

/-- Modelled from the spec: the AlreadyRunning guard of
`CommunicatorController.start` (§4.4, "rejected with AlreadyRunning if
not Idle").  The guard lives in the service layer outside `src/`, which
calls `EthercatCommunicator::start` only when `has_running_thread()` is
false.  On the Idle path the model performs what
`EthercatCommunicator::start` (lines 282-326) does to the embedded
state: mark the worker live (`running_thread_ = true`, line 318) and
launch the worker thread. -/
def controllerStart (s : CommunicatorState) : StartResult × CommunicatorState :=
  if s.running_thread then
    (.alreadyRunning, s)
  else
    (.ok, { s with running_thread := true, thread_terminated := false })

/-- `EthercatCommunicator::stop` (lines 574-601): `pthread_cancel`, then
`pthread_join` (after which the worker thread has terminated), then
`memset(process_data_buf, 0, total_process_data)`; finally
`running_thread_` is set to false only when the join result is
`PTHREAD_CANCELED`.  The join result is an input of the model (it is
produced by how the worker exited). -/
def stop (res : JoinResult) (s : CommunicatorState) : CommunicatorState :=
  let joined := { s with thread_terminated := true }
  let zeroed :=
    { joined with process_data_buf := List.replicate s.process_data_buf.length 0 }
  match res with
  | .canceled => { zeroed with running_thread := false }
  | .notCanceled => zeroed

/-! ## Theorems -/

/-- One `dcStep` keeps the cumulative adjustment inside
`[-1000, 1000]`: the window branch clamps it there and every other
branch leaves it unchanged. -/
theorem dcStep_adjust_bounds (cfg : DCConfig) (s : ClockState) (d : Int)
    (h₁ : -1000 ≤ s.dc_adjust_ns) (h₂ : s.dc_adjust_ns ≤ 1000) :
    -1000 ≤ (dcStep cfg s d).dc_adjust_ns ∧ (dcStep cfg s d).dc_adjust_ns ≤ 1000 := by
  simp only [dcStep, update_master_clock]
  split_ifs <;> simp_all

/-- `dcRun` preserves the adjustment bounds from any state satisfying
them. -/
theorem dcRun_adjust_bounds (cfg : DCConfig) (ds : List Int) (s : ClockState)
    (h₁ : -1000 ≤ s.dc_adjust_ns) (h₂ : s.dc_adjust_ns ≤ 1000) :
    -1000 ≤ (dcRun cfg s ds).dc_adjust_ns ∧ (dcRun cfg s ds).dc_adjust_ns ≤ 1000 := by
  induction ds generalizing s with
  | nil => exact ⟨h₁, h₂⟩
  | cons d ds ih =>
      have hb := dcStep_adjust_bounds cfg s d h₁ h₂
      exact ih (dcStep cfg s d) hb.1 hb.2

/-- Adding `{0, P}` to a `Timespec` adds exactly `P` to its total
nanoseconds, in both carry branches of `timespec_add`. -/
theorem toNs_timespec_add_period (t : Timespec) (P : Nat) :
    (timespec_add t { sec := 0, nsec := P }).toNs = t.toNs + P := by
  simp only [timespec_add, Timespec.toNs, NSEC_PER_SEC]
  split_ifs <;> simp_all
  · omega
  · ring

/-- C1: the N=4, clampBound=1000 golden scenario with raw diffs
{100, -50, 200, -20} ns starting armed from the zero state.  The code
(`dcRun`) ends with cumulative adjustment -3 and time base -3, because
`(dc_delta_total_ns_ + DC_FILTER_CNT/2) / DC_FILTER_CNT` is C division
truncating toward zero: `(-20 + 2) / 4 = -4`.  The claim's formula
`round(delta_total / N) = round(-5) = -5` (the spec-side
`spec_dcRun`) instead ends with adjustment -4 and time base -4, so the
code diverges from the stated formulas (and from its own
"add rounded delta average" comment) on negative delta totals. -/
theorem claim1_window_golden_values :
    (dcRun ⟨1000000, 4⟩ { ClockState.zero with dc_started := true }
        [100, -50, 200, -20]).dc_adjust_ns = -3 ∧
    (dcRun ⟨1000000, 4⟩ { ClockState.zero with dc_started := true }
        [100, -50, 200, -20]).system_time_base = -3 ∧
    (spec_dcRun ⟨1000000, 4⟩ { ClockState.zero with dc_started := true }
        [100, -50, 200, -20]).dc_adjust_ns = -4 ∧
    (spec_dcRun ⟨1000000, 4⟩ { ClockState.zero with dc_started := true }
        [100, -50, 200, -20]).system_time_base = -4 := by
  decide

/-- C2 (counterexample): for P = 10 and d = -9 the normalisation step
returns -9, which is outside `[-P/2, P/2) = [-5, 5)` (stated as
`-P ≤ 2x ∧ 2x < P`): C truncated `%` keeps the sign of the dividend, so
a diff below `-P/2` need not be wrapped into the interval. -/
theorem claim2_counterexample :
    ¬ (-(10 : Int) ≤ 2 * normalize (-9) 10 ∧ 2 * normalize (-9) 10 < 10) := by
  decide

/-- C2 (amended): for every period P > 0 and every raw diff d with
`d ≥ -(P/2)` — so that the dividend `d + P/2` is nonnegative, where C
truncated `%` agrees with mathematical mod — the normalisation
`((d + P/2) % P) - P/2` lies in the half-open interval `[-P/2, P/2)`. -/
theorem claim2_normalize_range (d P : Int) (hP : 0 < P)
    (hd : -(Int.tdiv P 2) ≤ d) :
    -P ≤ 2 * normalize d P ∧ 2 * normalize d P < P := by
  have hP2 : Int.tdiv P 2 = P / 2 := Int.tdiv_eq_ediv (by omega) (by omega)
  have hx : (0 : Int) ≤ d + Int.tdiv P 2 := by omega
  have hm : Int.tmod (d + Int.tdiv P 2) P = (d + Int.tdiv P 2) % P :=
    Int.tmod_eq_emod hx (le_of_lt hP)
  have h1 : 0 ≤ (d + Int.tdiv P 2) % P := Int.emod_nonneg _ (by omega)
  have h2 : (d + Int.tdiv P 2) % P < P := Int.emod_lt_of_pos _ hP
  unfold normalize
  rw [hm, hP2] at *
  omega

/-- Witness for `claim2_normalize_range` at d = 3, P = 10. -/
theorem claim2_normalize_range_witness :
    (0 : Int) < 10 ∧ -(Int.tdiv 10 2) ≤ (3 : Int) ∧
    (-(10 : Int) ≤ 2 * normalize 3 10 ∧ 2 * normalize 3 10 < 10) :=
  ⟨by decide, by decide, claim2_normalize_range 3 10 (by decide) (by decide)⟩

/-- C3: starting from the all-zero state, after any sequence of
drift-filter cycles the cumulative adjustment `dc_adjust_ns_` stays in
`[-1000, 1000]` (the hard-coded clamp bound of lines 164-171), for any
period and window size. -/
theorem claim3_adjust_invariant (cfg : DCConfig) (ds : List Int) :
    -1000 ≤ (dcRun cfg ClockState.zero ds).dc_adjust_ns ∧
    (dcRun cfg ClockState.zero ds).dc_adjust_ns ≤ 1000 :=
  dcRun_adjust_bounds cfg ds ClockState.zero (by decide) (by decide)

/-- C4: each loop iteration computes the next absolute wakeup as
`timespec_add(previous_wakeup, cycletime)` (line 499), never from the
current clock, so consecutive absolute wakeup times differ by exactly
the period P for every sequence of per-cycle body durations. -/
theorem claim4_wakeup_cadence (t0 : Timespec) (P : Nat) (durs : Nat → Nat)
    (n : Nat) :
    (wakeupTime t0 P durs (n + 1)).toNs = (wakeupTime t0 P durs n).toNs + P := by
  simp [wakeupTime, toNs_timespec_add_period]

/-- C5: starting a controller that is not running succeeds, and a
second `start` without an intervening `stop` returns AlreadyRunning and
leaves the state from the first start completely unchanged. -/
theorem claim5_start_already_running (s : CommunicatorState)
    (h : has_running_thread s = false) :
    (controllerStart s).1 = StartResult.ok ∧
    (controllerStart (controllerStart s).2).1 = StartResult.alreadyRunning ∧
    (controllerStart (controllerStart s).2).2 = (controllerStart s).2 := by
  simp only [has_running_thread] at h
  simp [controllerStart, h]

/-- Witness for `claim5_start_already_running` on a concrete idle
state. -/
theorem claim5_start_already_running_witness :
    has_running_thread
      { running_thread := false, thread_terminated := true,
        process_data_buf := [], clock := ClockState.zero } = false ∧
    ((controllerStart
        { running_thread := false, thread_terminated := true,
          process_data_buf := [], clock := ClockState.zero }).1 = StartResult.ok ∧
      (controllerStart (controllerStart
        { running_thread := false, thread_terminated := true,
          process_data_buf := [], clock := ClockState.zero }).2).1 =
          StartResult.alreadyRunning ∧
      (controllerStart (controllerStart
        { running_thread := false, thread_terminated := true,
          process_data_buf := [], clock := ClockState.zero }).2).2 =
        (controllerStart
          { running_thread := false, thread_terminated := true,
            process_data_buf := [], clock := ClockState.zero }).2) :=
  ⟨rfl, claim5_start_already_running _ rfl⟩

/-- C6 (counterexample): if `pthread_join` reports anything other than
`PTHREAD_CANCELED`, `stop` leaves `running_thread_` set (lines
594-600 only clear it on `res == PTHREAD_CANCELED`), so `isRunning()`
is not false after that call. -/
theorem claim6_counterexample :
    ¬ ((stop JoinResult.notCanceled
        { running_thread := true, thread_terminated := false,
          process_data_buf := [7],
          clock := ClockState.zero }).running_thread = false) := by
  decide

/-- C6 (amended): after `stop()` returns, from any prior state, the
worker thread has terminated and every byte of the shared process-data
buffer reads zero; and when the join reported `PTHREAD_CANCELED` (the
outcome the code treats as the only expected one), `isRunning()` is
false. -/
theorem claim6_stop_postconditions (s : CommunicatorState) (res : JoinResult) :
    (stop res s).thread_terminated = true ∧
    (∀ b ∈ (stop res s).process_data_buf, b = 0) ∧
    (res = JoinResult.canceled → (stop res s).running_thread = false) := by
  cases res <;> simp [stop]

/-- Witness for `claim6_stop_postconditions` on a concrete running
state with a canceled join. -/
theorem claim6_stop_postconditions_witness :
    (stop JoinResult.canceled
      { running_thread := true, thread_terminated := false,
        process_data_buf := [7, 3],
        clock := ClockState.zero }).running_thread = false ∧
    (∀ b ∈ (stop JoinResult.canceled
        { running_thread := true, thread_terminated := false,
          process_data_buf := [7, 3],
          clock := ClockState.zero }).process_data_buf, b = 0) :=
  ⟨(claim6_stop_postconditions _ JoinResult.canceled).2.2 rfl,
    (claim6_stop_postconditions _ JoinResult.canceled).2.1⟩

/-- C7: in every iteration of the worker loop (whichever branch the
sampling counter takes), `ecrt_domain_process` occurs strictly before
`ecrt_domain_queue`, and `ecrt_master_send` occurs strictly after
`sync_distributed_clocks`. -/
theorem claim7_pipeline_order (samplingCounterZero : Bool) :
    (cycleTrace samplingCounterZero).indexOf CycleEvent.domainProcess <
      (cycleTrace samplingCounterZero).indexOf CycleEvent.domainQueue ∧
    (cycleTrace samplingCounterZero).indexOf CycleEvent.syncDistributedClocks <
      (cycleTrace samplingCounterZero).indexOf CycleEvent.masterSend := by
  cases samplingCounterZero <;> decide

/-- C8 (counterexample): in the worker loop the raw process-data
snapshot is built and published by `publish_raw_data` (line 551) after
`ecrt_master_send` (line 548) — not before the pending outputs are
applied by `copy_process_data_buffer_to_buf` (line 527). -/
theorem claim8_counterexample :
    ¬ ((cycleTrace true).indexOf CycleEvent.publishRawData <
        (cycleTrace true).indexOf CycleEvent.copyOutputs) := by
  decide

/-- C8 (amended): in every cycle the pending output commands are
applied strictly before the domain is queued, the clock sync runs, and
the frame is sent; the snapshot publish occurs strictly after the frame
send and strictly before the drift update. -/
theorem claim8_pipeline_order (samplingCounterZero : Bool) :
    (cycleTrace samplingCounterZero).indexOf CycleEvent.copyOutputs <
      (cycleTrace samplingCounterZero).indexOf CycleEvent.domainQueue ∧
    (cycleTrace samplingCounterZero).indexOf CycleEvent.domainQueue <
      (cycleTrace samplingCounterZero).indexOf CycleEvent.syncDistributedClocks ∧
    (cycleTrace samplingCounterZero).indexOf CycleEvent.syncDistributedClocks <
      (cycleTrace samplingCounterZero).indexOf CycleEvent.masterSend ∧
    (cycleTrace samplingCounterZero).indexOf CycleEvent.masterSend <
      (cycleTrace samplingCounterZero).indexOf CycleEvent.publishRawData ∧
    (cycleTrace samplingCounterZero).indexOf CycleEvent.publishRawData <
      (cycleTrace samplingCounterZero).indexOf CycleEvent.updateMasterClock := by
  cases samplingCounterZero <;> decide

/-- C9: for any `int64_t` time base and any raw hardware reading below
`2^63` ns, `system_time_ns` never underflows: when the base exceeds the
raw time it returns the unadjusted raw time, otherwise exactly
`raw - base` (the `uint64_t` wrap-around subtraction is exact in this
range, even for negative bases). -/
theorem claim9_no_underflow (base : Int) (t : Nat)
    (ht : t < 2 ^ 63) (hb₁ : -(2 ^ 63) ≤ base) (hb₂ : base < 2 ^ 63) :
    (base > (t : Int) → system_time_ns base t = t) ∧
    (base ≤ (t : Int) → (system_time_ns base t : Int) = (t : Int) - base) := by
  simp only [system_time_ns, int64OfNat, uint64OfInt]
  split_ifs <;> constructor <;> intro h <;> omega

/-- Witness for `claim9_no_underflow` at base = 200, t = 100 (backward
jump) and, via the same bounds, base = -3, t = 100. -/
theorem claim9_no_underflow_witness :
    ((100 : Nat) < 2 ^ 63 ∧ -(2 ^ 63) ≤ (200 : Int) ∧ (200 : Int) < 2 ^ 63 ∧
      system_time_ns 200 100 = 100) ∧
    (system_time_ns (-3) 100 : Int) = (100 : Int) - (-3) :=
  ⟨⟨by decide, by decide, by decide,
      (claim9_no_underflow 200 100 (by decide) (by decide) (by decide)).1
        (by decide)⟩,
    (claim9_no_underflow (-3) 100 (by decide) (by decide) (by decide)).2
      (by decide)⟩

/-- C10: a drift-filter call made while the filter is not armed
(`dc_started_ == false`) leaves the time base, the cumulative
adjustment, both accumulators, the sample count and the application
time unchanged; it stores the raw diff into `prev_dc_diff_ns_`,
replaces `dc_diff_ns_` by its normalisation, arms the filter exactly
when the normalised diff is nonzero, and records the current
application time as the start time exactly then. -/
theorem claim10_unarmed_frame_effect (cfg : DCConfig) (s : ClockState)
    (h : s.dc_started = false) :
    (update_master_clock cfg s).system_time_base = s.system_time_base ∧
    (update_master_clock cfg s).dc_adjust_ns = s.dc_adjust_ns ∧
    (update_master_clock cfg s).dc_diff_total_ns = s.dc_diff_total_ns ∧
    (update_master_clock cfg s).dc_delta_total_ns = s.dc_delta_total_ns ∧
    (update_master_clock cfg s).dc_filter_idx = s.dc_filter_idx ∧
    (update_master_clock cfg s).dc_time_ns = s.dc_time_ns ∧
    (update_master_clock cfg s).prev_dc_diff_ns = s.dc_diff_ns ∧
    (update_master_clock cfg s).dc_diff_ns = normalize s.dc_diff_ns cfg.P ∧
    ((update_master_clock cfg s).dc_started = true ↔
      normalize s.dc_diff_ns cfg.P ≠ 0) ∧
    (normalize s.dc_diff_ns cfg.P ≠ 0 →
      (update_master_clock cfg s).dc_start_time_ns = s.dc_time_ns) ∧
    (normalize s.dc_diff_ns cfg.P = 0 →
      (update_master_clock cfg s).dc_start_time_ns = s.dc_start_time_ns) := by
  simp only [update_master_clock, h]
  by_cases hd : normalize s.dc_diff_ns cfg.P = 0 <;> simp_all

/-- Witness for `claim10_unarmed_frame_effect` on a concrete unarmed
state with a nonzero diff: the filter arms and records the application
time, and the time base stays untouched. -/
theorem claim10_unarmed_frame_effect_witness :
    (update_master_clock ⟨10, 2⟩
      { ClockState.zero with dc_diff_ns := 3, dc_time_ns := 42 }).dc_start_time_ns
        = 42 ∧
    (update_master_clock ⟨10, 2⟩
      { ClockState.zero with dc_diff_ns := 3, dc_time_ns := 42 }).system_time_base
        = 0 :=
  ⟨(claim10_unarmed_frame_effect ⟨10, 2⟩
      { ClockState.zero with dc_diff_ns := 3, dc_time_ns := 42 }
      rfl).2.2.2.2.2.2.2.2.2.1 (by decide),
    (claim10_unarmed_frame_effect ⟨10, 2⟩
      { ClockState.zero with dc_diff_ns := 3, dc_time_ns := 42 } rfl).1⟩

end EtherRos
